import Mathlib

/-!
Verification of the asynchronous command-execution core of the halo shell
(src/command.rs), checked against its natural-language specification.

The embedding is shallow: the update enumeration, the two stream-drainer
loops, the lifecycle-supervisor loop and the `CommandManager` facade are
translated into executable Lean definitions; the environment a unit interacts
with (the byte stream it reads, the race outcome of the select, the spawn
result the OS returns) is passed in explicitly as data.
-/

set_option autoImplicit false

namespace Halo

/-- The update enumeration of src/command.rs lines 11-15: `NewLine` carries one
line of output; `Finished` carries no payload.  (The callers expect a payload:
app.rs line 231 destructures `Finished(code)` and state.rs line 323 takes an
`Option<i32>` exit code; see the analysis of claim C1.) -/
inductive CommandUpdate where
  | NewLine (line : String)
  | Finished
  deriving DecidableEq

/-- Remove one trailing carriage return from a line held in REVERSED order
(most recently read character first); this mirrors the pop of a carriage
return that tokio `Lines` performs right after popping the newline. -/
def dropCRrev : List Char → List Char
  | '\r' :: tl => tl
  | l => l

/-- Remove one trailing carriage return from a line in source order. -/
def stripTrailingCR (l : List Char) : List Char :=
  (dropCRrev l.reverse).reverse

/-- The read loop of tokio `Lines::next_line` over an in-memory stream:
characters accumulate (in reversed order) until a newline; at a newline the
accumulated text is yielded with a trailing carriage return removed; at end of
stream a nonempty remainder is yielded as one final line and an empty
remainder yields nothing. -/
def linesAux : List Char → List Char → List String
  | [], [] => []
  | [], acc => [String.mk acc.reverse]
  | c :: rest, acc =>
    if c = '\n' then String.mk (dropCRrev acc).reverse :: linesAux rest []
    else linesAux rest (c :: acc)

/-- The complete sequence of lines tokio `Lines` yields for a stream whose
whole content is `s`. -/
def tokioLines (s : String) : List String :=
  linesAux s.data []

/-- One result of `reader.next_line().await` as matched by the drainer loops
(src/command.rs lines 70 and 80): `Ok(Some(line))`, `Ok(None)` at end of
stream, or `Err` on a read/decode error. -/
inductive ReadEv where
  | line (s : String)
  | atEnd
  | readErr
  deriving DecidableEq

/-- The stdout drainer loop (src/command.rs lines 68-75): while the stream
yields `Ok(Some(line))`, send `NewLine(line)` and break as soon as a send
fails.  `budget` is the number of sends the channel still accepts (`none` when
the receiving end stays alive forever): an unbounded mpsc send fails exactly
when the receiver has been dropped, and stays failed afterwards. -/
def stdoutDrain : List ReadEv → Option Nat → List CommandUpdate
  | [], _ => []
  | ReadEv.atEnd :: _, _ => []
  | ReadEv.readErr :: _, _ => []
  | ReadEv.line _ :: _, some 0 => []
  | ReadEv.line s :: rest, some (n + 1) =>
    CommandUpdate.NewLine s :: stdoutDrain rest (some n)
  | ReadEv.line s :: rest, none =>
    CommandUpdate.NewLine s :: stdoutDrain rest none

/-- The fixed marker the stderr drainer prepends (src/command.rs line 82). -/
def stderrMarker : String := "[stderr] "

/-- The stderr drainer loop (src/command.rs lines 78-88): identical to the
stdout drainer except each line is sent as `format!("[stderr] {}", line)`. -/
def stderrDrain : List ReadEv → Option Nat → List CommandUpdate
  | [], _ => []
  | ReadEv.atEnd :: _, _ => []
  | ReadEv.readErr :: _, _ => []
  | ReadEv.line _ :: _, some 0 => []
  | ReadEv.line s :: rest, some (n + 1) =>
    CommandUpdate.NewLine (stderrMarker ++ s) :: stderrDrain rest (some n)
  | ReadEv.line s :: rest, none =>
    CommandUpdate.NewLine (stderrMarker ++ s) :: stderrDrain rest none

/-- The `next_line` results an error-free finite stream with content `s`
delivers: each of its lines in order, then `Ok(None)`. -/
def readEvents (s : String) : List ReadEv :=
  (tokioLines s).map ReadEv.line ++ [ReadEv.atEnd]

/-- Written from the wording of claim C6: the stream content split on
newlines, with the trailing unterminated segment DISCARDED.  Complete
(newline-terminated) lines have one trailing carriage return removed. -/
def specLinesDropTrailing (s : String) : List String :=
  ((s.data.splitOn '\n').dropLast).map (fun l => String.mk (stripTrailingCR l))

/-- Post-processing of newline-split segments: every segment but the last was
newline-terminated and has a trailing carriage return removed; the final
segment is the unterminated remainder, kept as one final line when nonempty. -/
def finishSegs : List (List Char) → List String
  | [] => []
  | [l] => if l = [] then [] else [String.mk l]
  | l :: l2 :: rest => String.mk (stripTrailingCR l) :: finishSegs (l2 :: rest)

/-- The content split on newlines with the trailing unterminated segment KEPT
(emitted as a final line when nonempty). -/
def specLines (s : String) : List String :=
  finishSegs (s.data.splitOn '\n')

theorem linesAux_splitOn (cs : List Char) (acc : List Char) :
    linesAux cs acc =
      finishSegs ((cs.splitOn '\n').modifyHead (fun l => acc.reverse ++ l)) := by
  induction cs generalizing acc with
  | nil =>
    cases acc with
    | nil => simp [linesAux, finishSegs, List.splitOn]
    | cons a as =>
      have h : (a :: as).reverse ≠ [] := by simp
      simp [linesAux, finishSegs, List.splitOn, h]
  | cons c rest ih =>
    have hne : rest.splitOn '\n' ≠ [] := List.splitOnP_ne_nil _ _
    obtain ⟨p0, ps, hps⟩ : ∃ p0 ps, rest.splitOn '\n' = p0 :: ps := by
      cases hr : rest.splitOn '\n' with
      | nil => exact absurd hr hne
      | cons p0 ps => exact ⟨p0, ps, rfl⟩
    by_cases hc : c = '\n'
    · subst hc
      simp only [linesAux, if_pos rfl]
      rw [ih []]
      simp only [List.splitOn, List.splitOnP_cons] at hps ⊢
      simp only [beq_self_eq_true, if_true, hps, List.modifyHead,
        List.reverse_nil, List.nil_append, finishSegs, stripTrailingCR,
        List.append_nil, List.reverse_reverse]
    · simp only [linesAux, if_neg hc]
      rw [ih (c :: acc)]
      have hbeq : (c == '\n') = false := by
        exact beq_false_of_ne hc
      simp only [List.splitOn, List.splitOnP_cons] at hps ⊢
      rw [hbeq]
      simp only [if_false, hps, List.modifyHead, List.reverse_cons]
      simp [List.append_assoc]

theorem tokioLines_eq_specLines (s : String) : tokioLines s = specLines s := by
  unfold tokioLines specLines
  rw [linesAux_splitOn]
  obtain ⟨p0, ps, hps⟩ : ∃ p0 ps, s.data.splitOn '\n' = p0 :: ps := by
    cases hr : s.data.splitOn '\n' with
    | nil => exact absurd hr (List.splitOnP_ne_nil _ _)
    | cons p0 ps => exact ⟨p0, ps, rfl⟩
  simp [hps, List.modifyHead]

/-- The stderr drainer differs from the stdout drainer exactly by marking each
sent line. -/
def markUpdate : CommandUpdate → CommandUpdate
  | CommandUpdate.NewLine s => CommandUpdate.NewLine (stderrMarker ++ s)
  | CommandUpdate.Finished => CommandUpdate.Finished

theorem stderrDrain_eq_map (evs : List ReadEv) (b : Option Nat) :
    stderrDrain evs b = (stdoutDrain evs b).map markUpdate := by
  induction evs generalizing b with
  | nil => rfl
  | cons e evs ih =>
    cases e with
    | line s =>
      cases b with
      | none => simp [stdoutDrain, stderrDrain, markUpdate, ih]
      | some n =>
        cases n with
        | zero => rfl
        | succ n => simp [stdoutDrain, stderrDrain, markUpdate, ih]
    | atEnd => rfl
    | readErr => rfl

theorem stdoutDrain_readEvents (ls : List String) (tail : List ReadEv) :
    stdoutDrain (ls.map ReadEv.line ++ ReadEv.atEnd :: tail) none =
      ls.map CommandUpdate.NewLine := by
  induction ls with
  | nil => rfl
  | cons l ls ih => simp [stdoutDrain, ih]

theorem stdoutDrain_stop_readErr (pre post : List ReadEv) (b : Option Nat) :
    stdoutDrain (pre ++ ReadEv.readErr :: post) b = stdoutDrain pre b := by
  induction pre generalizing b with
  | nil =>
    cases b with
    | none => rfl
    | some n => cases n <;> rfl
  | cons e pre ih =>
    cases e with
    | line s =>
      cases b with
      | none => simp [stdoutDrain, ih]
      | some n =>
        cases n with
        | zero => rfl
        | succ n => simp [stdoutDrain, ih]
    | atEnd => rfl
    | readErr => rfl

theorem stdoutDrain_stop_atEnd (pre post : List ReadEv) (b : Option Nat) :
    stdoutDrain (pre ++ ReadEv.atEnd :: post) b = stdoutDrain pre b := by
  induction pre generalizing b with
  | nil =>
    cases b with
    | none => rfl
    | some n => cases n <;> rfl
  | cons e pre ih =>
    cases e with
    | line s =>
      cases b with
      | none => simp [stdoutDrain, ih]
      | some n =>
        cases n with
        | zero => rfl
        | succ n => simp [stdoutDrain, ih]
    | atEnd => rfl
    | readErr => rfl

theorem stdoutDrain_budget (evs : List ReadEv) (n : Nat) :
    stdoutDrain evs (some n) = (stdoutDrain evs none).take n := by
  induction evs generalizing n with
  | nil => simp [stdoutDrain]
  | cons e evs ih =>
    cases e with
    | line s =>
      cases n with
      | zero => rfl
      | succ n => simp [stdoutDrain, ih]
    | atEnd => simp [stdoutDrain]
    | readErr => simp [stdoutDrain]

theorem stdoutDrain_count_finished (evs : List ReadEv) (b : Option Nat) :
    (stdoutDrain evs b).count CommandUpdate.Finished = 0 := by
  induction evs generalizing b with
  | nil => rfl
  | cons e evs ih =>
    cases e with
    | line s =>
      cases b with
      | none => simp [stdoutDrain, List.count_cons, ih]
      | some n =>
        cases n with
        | zero => rfl
        | succ n => simp [stdoutDrain, List.count_cons, ih]
    | atEnd => rfl
    | readErr => rfl

theorem stderrDrain_count_finished (evs : List ReadEv) (b : Option Nat) :
    (stderrDrain evs b).count CommandUpdate.Finished = 0 := by
  induction evs generalizing b with
  | nil => rfl
  | cons e evs ih =>
    cases e with
    | line s =>
      cases b with
      | none => simp [stderrDrain, List.count_cons, ih]
      | some n =>
        cases n with
        | zero => rfl
        | succ n => simp [stderrDrain, List.count_cons, ih]
    | atEnd => rfl
    | readErr => rfl

/-- C6 (amended): for every byte stream read by a drainer, the emitted Line
updates are exactly the stream content decoded as UTF-8 and split on newlines
in source order — with a trailing partial line that has no terminator at
end-of-stream EMITTED as one final line (tokio Lines returns the unterminated
remainder; it is not discarded). -/
theorem stdout_drainer_emits_split_lines (s : String) :
    stdoutDrain (readEvents s) none = (specLines s).map CommandUpdate.NewLine := by
  rw [readEvents, stdoutDrain_readEvents, tokioLines_eq_specLines]

/-- C6 counterexample: on the stream content "hello" with no newline
terminator, the drainer emits NewLine "hello", while the claim as stated
(trailing partial line discarded) predicts that no Line update is emitted. -/
theorem trailing_partial_line_is_emitted :
    ¬ stdoutDrain (readEvents "hello") none =
        (specLinesDropTrailing "hello").map CommandUpdate.NewLine := by
  decide

/-- C7: the stderr drainer emits exactly the raw stderr lines, each prefixed
with the fixed marker "[stderr] " (so the emitted text is marker ++ raw line,
and dropping the marker's characters recovers the raw line), while the stdout
drainer forwards every line unmodified. -/
theorem stderr_lines_prefixed_stdout_unmodified (s : String) :
    stderrDrain (readEvents s) none =
        (tokioLines s).map (fun l => CommandUpdate.NewLine (stderrMarker ++ l)) ∧
      stdoutDrain (readEvents s) none = (tokioLines s).map CommandUpdate.NewLine ∧
      ∀ l : String, (stderrMarker ++ l).data = stderrMarker.data ++ l.data ∧
        ((stderrMarker ++ l).data).drop stderrMarker.data.length = l.data := by
  refine ⟨?_, ?_, ?_⟩
  · rw [stderrDrain_eq_map, readEvents, stdoutDrain_readEvents]
    simp [markUpdate]
  · rw [readEvents, stdoutDrain_readEvents]
  · intro l
    refine ⟨String.data_append _ _, ?_⟩
    rw [String.data_append, List.drop_left]

/-- C8: each drainer terminates at end-of-stream or at a read error, silently:
nothing at or past that point is emitted and the rest of the stream is never
read; every update a drainer emits is a NewLine (no error update exists to be
sent); and when the receiving end of the update channel is gone after n
accepted sends, the drainer emits at most those n lines and stops at the first
failed send — with the receiver already gone (n = 0) it emits nothing at all. -/
theorem drainer_stops_silently (pre post evs : List ReadEv) (b : Option Nat) (n : Nat) :
    stdoutDrain (pre ++ ReadEv.readErr :: post) b = stdoutDrain pre b ∧
      stdoutDrain (pre ++ ReadEv.atEnd :: post) b = stdoutDrain pre b ∧
      stdoutDrain (ReadEv.readErr :: post) b = [] ∧
      stdoutDrain evs (some n) = (stdoutDrain evs none).take n ∧
      stdoutDrain evs (some 0) = [] ∧
      (stdoutDrain evs b).count CommandUpdate.Finished = 0 ∧
      stderrDrain (pre ++ ReadEv.readErr :: post) b = stderrDrain pre b ∧
      stderrDrain (pre ++ ReadEv.atEnd :: post) b = stderrDrain pre b ∧
      stderrDrain evs (some n) = (stderrDrain evs none).take n ∧
      (stderrDrain evs b).count CommandUpdate.Finished = 0 := by
  refine ⟨stdoutDrain_stop_readErr pre post b, stdoutDrain_stop_atEnd pre post b,
    ?_, stdoutDrain_budget evs n, ?_, stdoutDrain_count_finished evs b,
    ?_, ?_, ?_, stderrDrain_count_finished evs b⟩
  · exact stdoutDrain_stop_readErr [] post b
  · rw [stdoutDrain_budget]
    simp
  · rw [stderrDrain_eq_map, stderrDrain_eq_map, stdoutDrain_stop_readErr]
  · rw [stderrDrain_eq_map, stderrDrain_eq_map, stdoutDrain_stop_atEnd]
  · rw [stderrDrain_eq_map, stderrDrain_eq_map, stdoutDrain_budget, List.map_take]

/-- Which future of the supervisor's two-armed select completes first
(src/command.rs lines 93-104): `child.wait()` returning a status, or the
one-shot kill receiver completing. -/
inductive RaceOutcome where
  | exited (status : Int)
  | killSignal
  deriving DecidableEq

inductive LoopControl where
  | brk
  | cont
  deriving DecidableEq

/-- One iteration of the supervisor loop body — the select with its two arms
(src/command.rs 93-104).  The wait arm discards the status and breaks; the
kill arm issues `child.kill()` and breaks.  Returns the loop control and
whether a kill was issued. -/
def selectIteration : RaceOutcome → LoopControl × Bool
  | RaceOutcome.exited _ => (LoopControl.brk, false)
  | RaceOutcome.killSignal => (LoopControl.brk, true)

/-- The surrounding `loop` (src/command.rs 92-105): run the body until an
iteration breaks.  `trace` supplies the race outcome of each iteration;
the result is the number of iterations run and whether a kill was issued, or
`none` when the trace is exhausted without a break. -/
def supervisorLoop : List RaceOutcome → Option (Nat × Bool)
  | [] => none
  | o :: rest =>
    match selectIteration o with
    | (LoopControl.brk, k) => some (1, k)
    | (LoopControl.cont, _) => (supervisorLoop rest).map (fun r => (r.1 + 1, r.2))

/-- The whole supervisor task body (src/command.rs 91-107): the loop, followed
unconditionally by exactly one attempt to send `Finished` (its result is
discarded).  Returns iterations run, whether a kill was issued, and the list
of update sends attempted. -/
def supervisorTask (trace : List RaceOutcome) : Option (Nat × Bool × List CommandUpdate) :=
  (supervisorLoop trace).map (fun r => (r.1, r.2, [CommandUpdate.Finished]))

/-- The manager state (src/command.rs 36-39): at most one stored one-shot kill
sender.  Distinct one-shot channels are identified by distinct tokens. -/
structure CommandManager where
  kill_sender : Option Nat
  deriving DecidableEq

/-- A spawn failure, propagated synchronously by the question-mark operator at
src/command.rs line 59. -/
inductive SpawnError where
  | notFound (program : String)
  | permissionDenied (program : String)
  | other (message : String)
  deriving DecidableEq

/-- The externally determined behavior of one successfully spawned child: the
full contents of its two output streams and which arm of the supervisor's
race completes first. -/
structure ChildRun where
  stdoutContent : String
  stderrContent : String
  outcome : RaceOutcome
  deriving DecidableEq

/-- The three concurrent units a successful spawn starts. -/
inductive UnitKind where
  | stdoutDrainer
  | stderrDrainer
  | supervisor
  deriving DecidableEq

/-- All update send attempts made by the three units of one successful spawn,
listed unit by unit (the interleaving between units is unspecified; only the
order within a unit and multiplicities are ever used), with the receiving end
of the channel staying alive. -/
def spawnSendAttempts (c : ChildRun) : List CommandUpdate :=
  stdoutDrain (readEvents c.stdoutContent) none ++
    stderrDrain (readEvents c.stderrContent) none ++
    (match supervisorTask [c.outcome] with
     | some r => r.2.2
     | none => [])

/-- Everything observable about one `spawn_command` call: the returned value,
the manager state after the call, the units started, the token of the
one-shot channel this call created (if any), the previously stored sender
dropped by overwriting the slot (if any), and the update sends attempted by
the units of this call. -/
structure SpawnOutcome where
  ret : Except SpawnError Unit
  manager : CommandManager
  started : List UnitKind
  killToken : Option Nat
  droppedSender : Option Nat
  sends : List CommandUpdate

/-- `CommandManager::spawn_command` (src/command.rs 46-110).  `osResult` is
what `TokioCommand::spawn` returns; on error the question mark at line 59
returns it before anything else happens.  On success a fresh one-shot channel
is created, storing its sender overwrites the slot (line 65) and thereby drops
the previously stored sender, and the two drainers plus the supervisor are
started. -/
def spawn_command (m : CommandManager) (osResult : Except SpawnError ChildRun)
    (tok : Nat) : SpawnOutcome :=
  match osResult with
  | Except.error e =>
    { ret := Except.error e, manager := m, started := [], killToken := none,
      droppedSender := none, sends := [] }
  | Except.ok child =>
    { ret := Except.ok (),
      manager := { kill_sender := some tok },
      started := [UnitKind.stdoutDrainer, UnitKind.stderrDrainer, UnitKind.supervisor],
      killToken := some tok,
      droppedSender := m.kill_sender,
      sends := spawnSendAttempts child }

/-- Everything observable about one `kill_running_command` call. -/
structure KillResult where
  manager : CommandManager
  ret : Except String Unit
  fired : Option Nat
  delivered : Bool

/-- `CommandManager::kill_running_command` (src/command.rs 112-119): take the
stored sender out of the slot if present and fire it, ignoring the send
result; always return Ok.  `closed t` says the receiver of the one-shot
channel `t` is already gone (the command finished), in which case the send
fails — which the code tolerates. -/
def kill_running_command (m : CommandManager) (closed : Nat → Bool) : KillResult :=
  match m.kill_sender with
  | some t =>
    { manager := { kill_sender := none }, ret := Except.ok (),
      fired := some t, delivered := !(closed t) }
  | none =>
    { manager := m, ret := Except.ok (), fired := none, delivered := false }

/-- tokio one-shot semantics: the receiver future completes once its sender
has been used up — either fired (a value was sent) or dropped without sending
(the receiver then completes with a closed-channel error).  The supervisor's
select arm binds the receiver's result with a wildcard pattern
(src/command.rs line 99), so either completion triggers the kill arm. -/
def receiverCompleted (t : Nat) (fired dropped : List Nat) : Bool :=
  fired.contains t || dropped.contains t

/-- Readiness of the supervisor's two select branches at a poll. -/
structure ArmReady where
  exitReady : Bool
  killReady : Bool
  deriving DecidableEq

inductive SelectArm where
  | exitArm
  | killArm
  deriving DecidableEq

/-- tokio select completes with a ready branch; when exactly one branch is
ready, the winner is forced. -/
def mustWin : ArmReady → Option SelectArm
  | { exitReady := true, killReady := false } => some SelectArm.exitArm
  | { exitReady := false, killReady := true } => some SelectArm.killArm
  | _ => none

/-- What each select arm does to the child (src/command.rs 94-103): the wait
arm lets it be, the kill arm calls `child.kill()`. -/
def armKillsChild : SelectArm → Bool
  | SelectArm.exitArm => false
  | SelectArm.killArm => true

/-- C1 (code evaluation at the failing input): running `echo hello` through
the embedded code yields NewLine "hello" followed by a payload-less Finished —
and the very same update sequence results when the command is cancelled
instead, because the supervisor discards the exit status (src/command.rs 96)
and `Finished` carries no exit code (line 14).  The claimed terminal update
Finished(Some(0)) — distinguishable from a cancelled run's Finished(None) — is
what the callers expect (app.rs line 231 destructures Finished(code), state.rs
line 323 takes an Option exit code), but not what this enum provides. -/
theorem echoHello_finished_carries_no_exit_code :
    spawnSendAttempts
        { stdoutContent := "hello\n", stderrContent := "",
          outcome := RaceOutcome.exited 0 } =
      [CommandUpdate.NewLine "hello", CommandUpdate.Finished] ∧
    spawnSendAttempts
        { stdoutContent := "hello\n", stderrContent := "",
          outcome := RaceOutcome.killSignal } =
      [CommandUpdate.NewLine "hello", CommandUpdate.Finished] := by
  constructor <;> decide

/-- C2: for every successful spawn, across the two drainers and the
supervisor, exactly one Finished send is attempted on the update channel —
whatever the streams contain and whether the child exits on its own or the
cancellation signal wins the race. -/
theorem spawn_finished_exactly_once (c : ChildRun) :
    (spawnSendAttempts c).count CommandUpdate.Finished = 1 := by
  unfold spawnSendAttempts
  cases c with
  | mk outS errS o =>
    cases o <;>
      simp [List.count_append, stdoutDrain_count_finished,
        stderrDrain_count_finished, supervisorTask, supervisorLoop,
        selectIteration, List.count_cons]

/-- C9: the supervisor's race is performed exactly once per command and the
supervisor then always terminates: the first iteration of the loop breaks on
whichever arm completes first, later iterations never happen (the trace past
the first outcome is irrelevant), and the task ends after attempting its
single Finished send. -/
theorem supervisor_races_once (o : RaceOutcome) (rest rest2 : List RaceOutcome) :
    supervisorTask (o :: rest) =
        some (1, (selectIteration o).2, [CommandUpdate.Finished]) ∧
      supervisorTask (o :: rest) = supervisorTask (o :: rest2) := by
  cases o <;> exact ⟨rfl, rfl⟩

/-- C4: a failed spawn returns the SpawnError synchronously and has no side
effects at all: the manager is left as it was, no unit is started, no one-shot
channel is created, nothing is dropped, and no update is ever sent on the sink
for that call. -/
theorem spawn_failure_no_side_effects (m : CommandManager) (e : SpawnError) (tok : Nat) :
    spawn_command m (Except.error e) tok =
      { ret := Except.error e, manager := m, started := [], killToken := none,
        droppedSender := none, sends := [] } :=
  rfl

/-- C5: kill_running_command always returns Ok; with a stored sender it
consumes it (the slot is cleared) and fires it, tolerating a closed receiver
(delivery may fail, the return value is Ok regardless); with no stored sender
it is a no-op: state unchanged, nothing fired, nothing delivered. -/
theorem kill_running_command_total (m : CommandManager) (closed : Nat → Bool) (t : Nat) :
    (kill_running_command m closed).ret = Except.ok () ∧
      kill_running_command { kill_sender := none } closed =
        { manager := { kill_sender := none }, ret := Except.ok (),
          fired := none, delivered := false } ∧
      kill_running_command { kill_sender := some t } closed =
        { manager := { kill_sender := none }, ret := Except.ok (),
          fired := some t, delivered := !(closed t) } := by
  refine ⟨?_, rfl, rfl⟩
  cases m with
  | mk s => cases s <;> rfl

/-- C10: when spawn_command fails, the manager's kill_sender slot is exactly
as before the call and nothing was dropped; in particular a previously stored
sender is still there, and kill_running_command after the failed spawn still
fires that previous command's one-shot channel. -/
theorem spawn_failure_keeps_previous_cancellable (m : CommandManager) (t tok : Nat)
    (e : SpawnError) (closed : Nat → Bool) :
    (spawn_command m (Except.error e) tok).manager = m ∧
      (spawn_command m (Except.error e) tok).droppedSender = none ∧
      (kill_running_command
          (spawn_command { kill_sender := some t } (Except.error e) tok).manager
          closed).fired = some t :=
  ⟨rfl, rfl, rfl⟩

/-- C3 counterexample: the previous command IS killed by the overwrite.  With
the token-0 command still active, a second spawn overwrites the slot and drops
the token-0 sender (src/command.rs line 65); by one-shot semantics the dropped
sender completes the old supervisor's kill receiver, and with the old process
still running (its wait arm not ready) the kill arm is the only ready branch —
so the old supervisor is forced into the arm that calls `child.kill()`.  This
refutes the claim that the previous command "still runs to completion (it is
not killed by the overwrite)". -/
theorem overwrite_kills_previous_command :
    (spawn_command { kill_sender := some 0 }
        (Except.ok { stdoutContent := "", stderrContent := "",
                     outcome := RaceOutcome.killSignal }) 1).droppedSender = some 0 ∧
      receiverCompleted 0 [] [0] = true ∧
      mustWin { exitReady := false, killReady := receiverCompleted 0 [] [0] } =
        some SelectArm.killArm ∧
      armKillsChild SelectArm.killArm = true := by
  decide

/-- C3 (amended): a second spawn_command while a previous command is active
overwrites the stored slot with the new sender, dropping the previous one;
the dropped sender completes the previous supervisor's kill receiver, so if
the previous process has not yet exited, the kill arm is the only ready branch
and the previous command is killed by the overwrite (rather than running to
completion).  Its supervisor still performs its race once and still emits its
own single Finished, and the previous command is indeed no longer cancellable
through the manager: kill_running_command now fires only the new token. -/
theorem second_spawn_overwrites_and_kills_previous (t1 t2 : Nat) (run2 : ChildRun)
    (closed : Nat → Bool) (h : t1 ≠ t2) :
    (spawn_command { kill_sender := some t1 } (Except.ok run2) t2).manager.kill_sender
        = some t2 ∧
      (spawn_command { kill_sender := some t1 } (Except.ok run2) t2).droppedSender
        = some t1 ∧
      receiverCompleted t1 [] [t1] = true ∧
      mustWin { exitReady := false, killReady := true } = some SelectArm.killArm ∧
      armKillsChild SelectArm.killArm = true ∧
      supervisorTask [RaceOutcome.killSignal] =
        some (1, true, [CommandUpdate.Finished]) ∧
      (kill_running_command
          (spawn_command { kill_sender := some t1 } (Except.ok run2) t2).manager
          closed).fired = some t2 ∧
      (kill_running_command
          (spawn_command { kill_sender := some t1 } (Except.ok run2) t2).manager
          closed).fired ≠ some t1 := by
  refine ⟨rfl, rfl, ?_, rfl, rfl, rfl, rfl, ?_⟩
  · simp [receiverCompleted]
  · simp [kill_running_command, spawn_command]
    exact fun hh => h hh.symm

theorem second_spawn_overwrites_witness :
    (0 : Nat) ≠ 1 ∧
      ((spawn_command { kill_sender := some 0 }
            (Except.ok { stdoutContent := "", stderrContent := "",
                         outcome := RaceOutcome.exited 0 }) 1).manager.kill_sender = some 1 ∧
        (spawn_command { kill_sender := some 0 }
            (Except.ok { stdoutContent := "", stderrContent := "",
                         outcome := RaceOutcome.exited 0 }) 1).droppedSender = some 0 ∧
        receiverCompleted 0 [] [0] = true ∧
        mustWin { exitReady := false, killReady := true } = some SelectArm.killArm ∧
        armKillsChild SelectArm.killArm = true ∧
        supervisorTask [RaceOutcome.killSignal] =
          some (1, true, [CommandUpdate.Finished]) ∧
        (kill_running_command
            (spawn_command { kill_sender := some 0 }
              (Except.ok
                { stdoutContent := "", stderrContent := "",
                  outcome := RaceOutcome.exited 0 }) 1).manager
            (fun _ => false)).fired = some 1 ∧
        (kill_running_command
            (spawn_command { kill_sender := some 0 }
              (Except.ok
                { stdoutContent := "", stderrContent := "",
                  outcome := RaceOutcome.exited 0 }) 1).manager
            (fun _ => false)).fired ≠ some 0) :=
  ⟨by decide,
    second_spawn_overwrites_and_kills_previous 0 1
      { stdoutContent := "", stderrContent := "", outcome := RaceOutcome.exited 0 }
      (fun _ => false) (by decide)⟩

end Halo
